import Mathlib

/-!
Verification of the core of the `pi-sd-offloader` repository: a shallow
embedding of `src/core/transfer_manager.py` (checksums, transfer engine,
duplicate detection, network probes) and `src/core/camera_detector.py`
(detection scoring and file-list preparation), together with theorems
settling the specification's claims about these components.

Modelling conventions:
- File contents are `List Nat` byte sequences.  The filesystem is a total
  map from path strings to a `FileState`; `unreadable` models a file that
  exists (is stat-able, has a size) but whose every read raises.
- The checksum algorithm is an arbitrary function `hash : Bytes → Bytes`;
  the injectivity of a cryptographic digest is an explicit hypothesis where
  a claim needs it.
- Python exceptions that the source catches are modelled as `Option`/error
  values in the corresponding branch; exceptions the source propagates are
  modelled as error results of the embedding.
- External processes (`shutil.copy2`, `find`, `exiftool`, `subprocess.run`)
  are modelled by explicit outcome oracles supplied as arguments, so each
  theorem quantifies over every environment behaviour.
-/

/-- Byte sequence: the contents of a file. -/
abbrev Bytes := List Nat

/-- The state of one path in the filesystem.  `unreadable` is a file that
exists and has a size (stat succeeds) but for which every content read
raises. -/
inductive FileState where
  | absent
  | unreadable (content : Bytes)
  | readable (content : Bytes)
deriving DecidableEq

/-- A filesystem: a total assignment of states to path strings. -/
abbrev FS := String → FileState

/-- Overwrite the state of one path. -/
def setFile (fs : FS) (p : String) (st : FileState) : FS :=
  fun q => if q = p then st else fs q

/-- `os.path.exists`. -/
def pathExists (fs : FS) (p : String) : Bool :=
  match fs p with
  | .absent => false
  | _ => true

/-- Reading the full contents of a file; `none` models an `OSError` from
`open`/`read` (absent or unreadable file). -/
def readBytes (fs : FS) (p : String) : Option Bytes :=
  match fs p with
  | .readable b => some b
  | _ => none

/-- `os.path.getsize`; `none` models the `OSError` for an absent path. -/
def getsize (fs : FS) (p : String) : Option Nat :=
  match fs p with
  | .absent => none
  | .unreadable b => some b.length
  | .readable b => some b.length

/-- Python's two-argument `min` on integers (left argument on ties). -/
def pymin (a b : Int) : Int := if a ≤ b then a else b

/-- Whether a string starts with a slash (used by the `os.path.join`
model). -/
def startsSlash (s : String) : Bool :=
  match s.data with
  | [] => false
  | c :: _ => c = '/'

/-- Whether a string ends with a slash. -/
def endsSlash (s : String) : Bool :=
  match s.data.getLast? with
  | some c => c = '/'
  | none => false

/-- `os.path.join` for two components (POSIX): an absolute second component
replaces the first; otherwise the components are joined with a single
separator. -/
def pjoin (a b : String) : String :=
  if a = "" then b
  else if startsSlash b then b
  else if endsSlash a then a ++ b
  else a ++ "/" ++ b

/-- `os.path.join(base, device, date, rel)` as used for destination paths. -/
def pjoin4 (a b c d : String) : String := pjoin (pjoin (pjoin a b) c) d

/-- Split a path into components at slashes (`"/a/b".split("/") =
["", "a", "b"]`, as in Python). -/
def splitCompsAux : List Char → List Char → List String
  | [], acc => [⟨acc.reverse⟩]
  | c :: rest, acc =>
    if c = '/' then ⟨acc.reverse⟩ :: splitCompsAux rest []
    else splitCompsAux rest (c :: acc)

/-- All slash-separated components of a path string. -/
def splitPath (s : String) : List String := splitCompsAux s.data []

/-- Length of the common leading run of two component lists. -/
def commonLen : List String → List String → Nat
  | a :: as, b :: bs => if a = b then 1 + commonLen as bs else 0
  | _, _ => 0

/-- Join components with slashes. -/
def joinParts : List String → String
  | [] => ""
  | [x] => x
  | x :: rest => x ++ "/" ++ joinParts rest

/-- `os.path.relpath(p, start)` on POSIX, for normalized absolute inputs:
drop the common component run and climb with `..` entries.  On POSIX this
function is total — it never raises `ValueError` for two absolute paths —
so a path outside `start` yields a result with leading `..` components. -/
def relpath (p start : String) : String :=
  let pa := (splitPath p).filter (fun x => x ≠ "")
  let sa := (splitPath start).filter (fun x => x ≠ "")
  let i := commonLen pa sa
  let parts := List.replicate (sa.length - i) ".." ++ pa.drop i
  if parts = [] then "." else joinParts parts

/-- `os.path.basename`: everything after the last slash. -/
def basenameAux : List Char → List Char → List Char
  | [], acc => acc.reverse
  | c :: rest, acc =>
    if c = '/' then basenameAux rest []
    else basenameAux rest (c :: acc)

/-- `os.path.basename` of a path string. -/
def basename (s : String) : String := ⟨basenameAux s.data []⟩

/-- Whether path `p` is located under the root `root` (component-wise
containment, the property the spec means by "located under the mount-path
root"). -/
def underRoot (root p : String) : Bool :=
  List.isPrefixOf ((splitPath root).filter (fun x => x ≠ ""))
    ((splitPath p).filter (fun x => x ≠ ""))

/-- Lowercase a string character-wise (Python `str.lower` on ASCII). -/
def lcStr (s : String) : String := ⟨s.data.map Char.toLower⟩

/-- Whether a character list starts with another one. -/
def listStartsWith : List Char → List Char → Bool
  | _, [] => true
  | [], _ :: _ => false
  | a :: as, b :: bs => if a = b then listStartsWith as bs else false

/-- Whether `needle` occurs contiguously inside `hay`. -/
def containsAux (needle : List Char) : List Char → Bool
  | [] => listStartsWith [] needle
  | c :: rest =>
    if listStartsWith (c :: rest) needle then true
    else containsAux needle rest

/-- Python's substring test `needle in hay`. -/
def strContains (hay needle : String) : Bool :=
  containsAux needle.data hay.data

/-- Lexicographic comparison of character lists by code point. -/
def charListLe : List Char → List Char → Bool
  | [], _ => true
  | _ :: _, [] => false
  | a :: as, b :: bs =>
    if a.toNat < b.toNat then true
    else if b.toNat < a.toNat then false
    else charListLe as bs

/-- Insert a string into a sorted list of strings (insertion sort step). -/
def insertSorted (x : String) : List String → List String
  | [] => [x]
  | y :: rest =>
    if charListLe x.data y.data then x :: y :: rest
    else y :: insertSorted x rest

/-- Sort a list of strings lexicographically (Python `sorted`). -/
def sortStrings : List String → List String
  | [] => []
  | x :: rest => insertSorted x (sortStrings rest)

/-!
## ChecksumManager (`src/core/transfer_manager.py`, lines 69-94)
-/

/-- `ChecksumManager.calculate_checksum`: stream the file and digest it.
`none` models the `OSError`/`IOError` raised when the file cannot be
opened or read. -/
def calculate_checksum (hash : Bytes → Bytes) (fs : FS) (p : String) : Option Bytes :=
  (readBytes fs p).map hash

/-- `ChecksumManager.verify_transfer`: `False` when the destination does
not exist; otherwise compare the two digests, with any exception during
digest computation caught and turned into `False`. -/
def verify_transfer (hash : Bytes → Bytes) (fs : FS) (src dst : String) : Bool :=
  if pathExists fs dst = false then false
  else
    match calculate_checksum hash fs src, calculate_checksum hash fs dst with
    | some a, some b => decide (a = b)
    | _, _ => false

/-!
## TransferManager (`src/core/transfer_manager.py`, lines 96-285)
-/

/-- Per-file outcome of the environment when `shutil.copy2` runs:
`err left` means the copy raised, leaving the destination in state `left`;
`deliver b u` means the copy returned normally and the destination now
holds bytes `b` (`b` equals the source bytes for an uncorrupted copy), and
`u` records whether the later `os.stat`/`os.utime` timestamp replication
would succeed (`false` models an exception raised there). -/
inductive CopyEvent where
  | err (left : FileState)
  | deliver (b : Bytes) (utimeOk : Bool)

/-- `TransferResult` (timing fields are not modelled). -/
structure TransferResult where
  success : Bool
  source_file : String
  dest_file : String
  checksum : Bytes
  error_message : Option String
deriving DecidableEq

/-- `TransferStats` (timestamps are not modelled). -/
structure TransferStats where
  total_files : Nat
  successful_transfers : Nat
  failed_transfers : Nat
  total_size : Nat
  transferred_size : Nat
deriving DecidableEq

/-- The configuration keys `TransferManager` reads. -/
structure TransferConfig where
  transfer_mode : String
  fallback_to_local : Bool
  nas_storage_path : String
  local_storage_path : String
  preserve_timestamps : Bool

/-- Environment of one `transfer_files` run: the value the NAS
reachability probe would report during mode selection and during the
staged-mode sync sub-phase, and the copy outcomes for the main loop and
for the sync loop, consumed positionally. -/
structure TransferEnv where
  nasProbeAtSelect : Bool
  nasProbeAtSync : Bool
  mainEvents : List CopyEvent
  syncEvents : List CopyEvent

/-- Result of a `transfer_files` call: `error = some m` models the run
raising an exception with message `m` (in which case `stats` is the state
of `self.stats` at raise time and `fs` the untouched filesystem). -/
structure RunOutcome where
  error : Option String
  stats : TransferStats
  fs : FS

/-- `TransferManager._get_transfer_mode`: a pinned mode is returned as-is;
`auto` probes the NAS and falls back to local staging when allowed,
raising otherwise. -/
def get_transfer_mode (cfg : TransferConfig) (nasUp : Bool) : Except String String :=
  if cfg.transfer_mode = "auto" then
    if nasUp then .ok "direct_nas"
    else if cfg.fallback_to_local then .ok "local_first"
    else .error "NAS not available and local fallback disabled"
  else .ok cfg.transfer_mode

/-- `TransferManager._copy_file_with_verification`.  Computes the source
digest (an exception there is caught and yields a failed result), copies
(`ev` decides the outcome), verifies by digest comparison, deletes the
destination on mismatch, and on success replicates timestamps when
requested — an exception during that replication is caught by the same
`except` block but leaves `success = True` with an error message, exactly
as in the source. -/
def copy_file_with_verification (hash : Bytes → Bytes) (fs : FS)
    (src dst : String) (preserve_ts : Bool) (ev : CopyEvent) :
    TransferResult × FS :=
  match readBytes fs src with
  | none =>
    ({ success := false, source_file := src, dest_file := dst,
       checksum := [], error_message := some "checksum error" }, fs)
  | some srcBytes =>
    let chk := hash srcBytes
    match ev with
    | .err left =>
      ({ success := false, source_file := src, dest_file := dst,
         checksum := chk, error_message := some "copy error" },
       setFile fs dst left)
    | .deliver b utimeOk =>
      let fs1 := setFile fs dst (.readable b)
      if verify_transfer hash fs1 src dst then
        ({ success := true, source_file := src, dest_file := dst,
           checksum := chk,
           error_message :=
             if preserve_ts ∧ utimeOk = false then some "utime error"
             else none }, fs1)
      else
        ({ success := false, source_file := src, dest_file := dst,
           checksum := chk,
           error_message := some "Checksum verification failed" },
         if pathExists fs1 dst then setFile fs1 dst .absent else fs1)

/-- `TransferManager._update_stats`: one update per file; success bumps
the success count and adds the source size when `os.path.getsize`
succeeds, failure bumps the failure count. -/
def update_stats (fs : FS) (r : TransferResult) (source_file : String)
    (st : TransferStats) : TransferStats :=
  if r.success then
    match getsize fs source_file with
    | some n =>
      { st with successful_transfers := st.successful_transfers + 1,
                transferred_size := st.transferred_size + n }
    | none => { st with successful_transfers := st.successful_transfers + 1 }
  else { st with failed_transfers := st.failed_transfers + 1 }

/-- The shared shape of the per-file loops of
`_transfer_direct_to_nas` and of the local phase of
`_transfer_local_first`: walk the file list, copy each `source` to
`os.path.join(base, device, date, rel)`, update the stats once per file,
and collect `(dest, rel)` for every success.  The collected list is the
`local_transfers` list of `_transfer_local_first`;
`_transfer_direct_to_nas` simply discards it. -/
def transfer_loop (hash : Bytes → Bytes) (base device date : String)
    (preserve_ts : Bool) :
    List (String × String) → List CopyEvent → FS → TransferStats →
    FS × TransferStats × List (String × String)
  | [], _, fs, st => (fs, st, [])
  | (src, rel) :: rest, evs, fs, st =>
    let dst := pjoin4 base device date rel
    let pr := copy_file_with_verification hash fs src dst preserve_ts
      (evs.headD (.err .absent))
    let st' := update_stats pr.2 pr.1 src st
    let r := transfer_loop hash base device date preserve_ts rest evs.tail pr.2 st'
    (r.1, r.2.1, (if pr.1.success then [(dst, rel)] else []) ++ r.2.2)

/-- The loop of `TransferManager._sync_to_nas_async`: copy each staged
local file to the NAS destination; results are only logged — the stats
object is never updated here, and staged files are never removed (the
removal in the source is commented out). -/
def sync_loop (hash : Bytes → Bytes) (base device date : String) :
    List (String × String) → List CopyEvent → FS → TransferStats →
    FS × TransferStats
  | [], _, fs, st => (fs, st)
  | (localFile, rel) :: rest, evs, fs, st =>
    let dst := pjoin4 base device date rel
    let pr := copy_file_with_verification hash fs localFile dst true
      (evs.headD (.err .absent))
    sync_loop hash base device date rest evs.tail pr.2 st

/-- `TransferManager._sync_to_nas_async`: probe the NAS, and when it is
reachable push every staged file best-effort. -/
def sync_to_nas (hash : Bytes → Bytes) (cfg : TransferConfig)
    (device date : String) (nasUp : Bool)
    (localFiles : List (String × String)) (evs : List CopyEvent)
    (fs : FS) (st : TransferStats) : FS × TransferStats :=
  if nasUp then
    sync_loop hash cfg.nas_storage_path device date localFiles evs fs st
  else (fs, st)

/-- `TransferManager._transfer_direct_to_nas`. -/
def transfer_direct_to_nas (hash : Bytes → Bytes) (cfg : TransferConfig)
    (device date : String) (files : List (String × String))
    (evs : List CopyEvent) (fs : FS) (st : TransferStats) :
    FS × TransferStats :=
  let r := transfer_loop hash cfg.nas_storage_path device date
    cfg.preserve_timestamps files evs fs st
  (r.1, r.2.1)

/-- `TransferManager._transfer_local_first`: stage everything locally,
then push the successfully staged files to the NAS. -/
def transfer_local_first (hash : Bytes → Bytes) (cfg : TransferConfig)
    (env : TransferEnv) (device date : String)
    (files : List (String × String)) (fs : FS) (st : TransferStats) :
    FS × TransferStats :=
  let r := transfer_loop hash cfg.local_storage_path device date
    cfg.preserve_timestamps files env.mainEvents fs st
  sync_to_nas hash cfg device date env.nasProbeAtSync r.2.2 env.syncEvents
    r.1 r.2.1

/-- The stats object right after `transfer_files` reset it and accumulated
the total byte count (an `OSError` from `getsize` skips that file's
contribution). -/
def sum_sizes (fs : FS) : List (String × String) → Nat
  | [] => 0
  | (src, _) :: rest => (getsize fs src).getD 0 + sum_sizes fs rest

/-- The freshly reset `self.stats` of a run over `files`. -/
def initStats (fs : FS) (files : List (String × String)) : TransferStats :=
  { total_files := files.length, successful_transfers := 0,
    failed_transfers := 0, total_size := sum_sizes fs files,
    transferred_size := 0 }

/-- `TransferManager.transfer_files`: reset the stats, accumulate the
total size, select the mode (a selection failure propagates as an error
before any copy), and dispatch: `direct_nas` goes straight to the NAS,
anything else takes the local-first path, exactly as the source's
`if`/`else`. -/
def transfer_files (hash : Bytes → Bytes) (cfg : TransferConfig)
    (env : TransferEnv) (fs : FS) (files : List (String × String))
    (device date : String) : RunOutcome :=
  let st0 := initStats fs files
  match get_transfer_mode cfg env.nasProbeAtSelect with
  | .error m => { error := some m, stats := st0, fs := fs }
  | .ok mode =>
    if mode = "direct_nas" then
      let r := transfer_direct_to_nas hash cfg device date files
        env.mainEvents fs st0
      { error := none, stats := r.2, fs := r.1 }
    else
      let r := transfer_local_first hash cfg env device date files fs st0
      { error := none, stats := r.2, fs := r.1 }

/-!
## DuplicateManager (`src/core/transfer_manager.py`, lines 287-339)
-/

/-- Lookup in an insertion-ordered association list (Python `dict`
membership and subscript). -/
def alookup {α : Type} : List (Bytes × α) → Bytes → Option α
  | [], _ => none
  | (k, v) :: rest, c => if k = c then some v else alookup rest c

/-- `duplicates[checksum].append(file_path)`: extend the first entry with
the given key. -/
def appendAt : List (Bytes × List String) → Bytes → String →
    List (Bytes × List String)
  | [], _, _ => []
  | (k, v) :: rest, c, p =>
    if k = c then (k, v ++ [p]) :: rest
    else (k, v) :: appendAt rest c p

/-- The loop of `DuplicateManager.check_duplicates`: digest each path (a
digest failure is logged and the path skipped); a digest seen before opens
or extends a duplicate group seeded with the first occurrence. -/
def cdGo (hash : Bytes → Bytes) (fs : FS) :
    List String → List (Bytes × String) → List (Bytes × List String) →
    List (Bytes × List String)
  | [], _, dups => dups
  | p :: rest, seen, dups =>
    match calculate_checksum hash fs p with
    | none => cdGo hash fs rest seen dups
    | some c =>
      match alookup seen c with
      | some first =>
        let dups' := match alookup dups c with
          | none => dups ++ [(c, [first, p])]
          | some _ => appendAt dups c p
        cdGo hash fs rest seen dups'
      | none => cdGo hash fs rest (seen ++ [(c, p)]) dups

/-- `DuplicateManager.check_duplicates` (the `device_name`/`import_date`
arguments are accepted and unused, as in the source). -/
def check_duplicates (hash : Bytes → Bytes) (fs : FS) (files : List String)
    (device_name import_date : String) : List (Bytes × List String) :=
  cdGo hash fs files [] []

/-!
## NetworkManager (`src/core/transfer_manager.py`, lines 35-67)
-/

/-- Behaviour of the probe command in the environment: how long it would
run (`none` = it never terminates) and the exit code it would return. -/
structure ProcEnv where
  duration : Option Nat
  returncode : Int

/-- Result of `subprocess.run(..., timeout = tmo)`:  the completed
process, a raised `TimeoutExpired`, or — when no timeout was passed and
the command never terminates — the call never returning. -/
inductive RunRes where
  | finished (rc : Int)
  | timedOutExn
  | hangs
deriving DecidableEq

/-- `subprocess.run` with an optional `timeout` argument. -/
def subprocess_run (tmo : Option Nat) (env : ProcEnv) : RunRes :=
  match env.duration, tmo with
  | none, some _ => .timedOutExn
  | none, none => .hangs
  | some d, some t => if t < d then .timedOutExn else .finished env.returncode
  | some _, none => .finished env.returncode

/-- What a probe call does from the caller's point of view: return a
boolean, or never return at all. -/
inductive ProbeRes where
  | returns (b : Bool)
  | hangs
deriving DecidableEq

/-- The configuration keys `NetworkManager` reads (the command strings
themselves are abstracted into `ProcEnv`). -/
structure NetConfig where
  nas_timeout_seconds : Nat

/-- `NetworkManager.test_nas_connectivity`: run the probe with the
configured timeout; `TimeoutExpired` and `CalledProcessError` are caught
and yield `False`; otherwise report `returncode == 0`. -/
def test_nas_connectivity (cfg : NetConfig) (env : ProcEnv) : ProbeRes :=
  match subprocess_run (some cfg.nas_timeout_seconds) env with
  | .finished rc => .returns (rc == 0)
  | .timedOutExn => .returns false
  | .hangs => .hangs

/-- `NetworkManager.check_vpn_status`: runs the shell command with **no**
timeout argument, so a command that never terminates blocks the call
forever; a completed command reports `returncode == 0`.  (The
`TimeoutExpired` branch is unreachable because no timeout is passed; the
`except CalledProcessError` of the source is dead since `check=` is not
set.) -/
def check_vpn_status (env : ProcEnv) : ProbeRes :=
  match subprocess_run none env with
  | .finished rc => .returns (rc == 0)
  | .timedOutExn => .returns false
  | .hangs => .hangs

/-!
## CameraDetector (`src/core/camera_detector.py`)
-/

/-- One entry of a profile's `folder_structure` detection rules. -/
structure FolderRule where
  path : String
  required : Bool
deriving DecidableEq

/-- One entry of a profile's `file_patterns` detection rules (`confidence`
defaults to 50 in the source; here it is an arbitrary configured value). -/
structure PatternRule where
  pattern : String
  confidence : Int
deriving DecidableEq

/-- A profile's `exif_rules` (an empty dict in the source is falsy and
handled as `none` at the use site). -/
structure ExifRules where
  make : String
  model_contains : List String
  confidence : Int

/-- One entry of a profile's per-category `file_sources` configuration. -/
structure SourceConfig where
  path : String
  extensions : List String
  recursive : Bool

/-- A camera profile as `CameraDetector` reads it (the nested
`detection_rules` dict is flattened; missing keys default to empty, as via
`.get(..., [])` in the source). -/
structure CameraConfig where
  name : String
  folder_structure : List FolderRule
  file_patterns : List PatternRule
  exif_rules : Option ExifRules
  file_sources : List (String × List SourceConfig)

/-- `CameraDetectionResult`. -/
structure CameraDetectionResult where
  camera_id : String
  camera_name : String
  confidence_score : Int
  detection_methods : List String
  file_sources : List (String × List String)

/-- Outcomes of the external processes `CameraDetector` spawns:
`findName root pat` is `find root -name pat`, `findIExt root ext` is the
recursive `find root -iname *ext -type f`, `findIExtTop` the `-maxdepth 1`
variant, and `exiftool f` the stdout lines of
`exiftool -Make -Model -s -s -s f`.  `none` models a timeout (or a failed
process), which every call site treats as "nothing found"; `some []`
models a run with empty stdout. -/
structure DetectEnv where
  findName : String → String → Option (List String)
  findIExt : String → String → Option (List String)
  findIExtTop : String → String → Option (List String)
  exiftool : String → Option (List String)

/-- The loop of `CameraDetector._test_folder_structure`, with its early
`return 0` when a required folder is missing (which discards any score
accumulated so far). -/
def folder_loop (fs : FS) (sd : String) (acc : Int) : List FolderRule → Int
  | [] => acc
  | r :: rest =>
    if pathExists fs (pjoin sd r.path) then
      folder_loop fs sd (acc + if r.required then 30 else 10) rest
    else if r.required then 0
    else folder_loop fs sd acc rest

/-- `CameraDetector._test_folder_structure`. -/
def test_folder_structure (fs : FS) (sd : String) (rules : List FolderRule) : Int :=
  folder_loop fs sd 0 rules

/-- The contribution of a single `file_patterns` rule: when matching files
exist, `min(confidence, confidence + file_count * 5)` (the source's
"bonus for more files" expression); a timed-out or failed search, or an
empty match list, contributes 0. -/
def pattern_score (env : DetectEnv) (sd : String) (r : PatternRule) : Int :=
  match env.findName sd r.pattern with
  | none => 0
  | some found =>
    if found.length > 0 then
      pymin r.confidence (r.confidence + (found.length : Int) * 5)
    else 0

/-- `CameraDetector._test_file_patterns`. -/
def test_file_patterns (env : DetectEnv) (sd : String) : List PatternRule → Int
  | [] => 0
  | r :: rest => pattern_score env sd r + test_file_patterns env sd rest

/-- The loop of `CameraDetector._find_sample_files`: for each extension,
take the first two hits, stopping once at least five samples are
collected; a timed-out search is skipped. -/
def sample_files_loop (env : DetectEnv) (sd : String) :
    List String → List String → List String
  | [], acc => acc
  | ext :: rest, acc =>
    match env.findIExt sd ("*" ++ ext) with
    | none => sample_files_loop env sd rest acc
    | some found =>
      let acc' := if found.length > 0 then acc ++ found.take 2 else acc
      if acc'.length ≥ 5 then acc' else sample_files_loop env sd rest acc'

/-- `CameraDetector._find_sample_files`. -/
def find_sample_files (env : DetectEnv) (sd : String) : List String :=
  sample_files_loop env sd
    [".jpg", ".jpeg", ".arw", ".mp4", ".mov", ".lrf"] []

/-- The score one EXIF sample contributes: half the confidence when the
manufacturer matches, plus half when any expected model substring occurs
(`//` is Python floor division). -/
def exif_sample_score (rules : ExifRules) (lines : List String) : Int :=
  if lines.length ≥ 2 then
    let mk := lcStr (lines.getD 0 "")
    let mdl := lcStr (lines.getD 1 "")
    (if lcStr rules.make ≠ "" ∧ strContains mk (lcStr rules.make) then
       Int.fdiv rules.confidence 2
     else 0) +
    (if rules.model_contains.any (fun part => strContains mdl (lcStr part)) then
       Int.fdiv rules.confidence 2
     else 0)
  else 0

/-- `CameraDetector._test_exif_data`: nothing to do without rules or
samples; otherwise test up to three sample files (a timed-out or failed
`exiftool` run skips that sample) and cap the total at the rule's
confidence ceiling. -/
def test_exif_data (env : DetectEnv) (sd : String) : Option ExifRules → Int
  | none => 0
  | some rules =>
    let samples := find_sample_files env sd
    if samples.length = 0 then 0
    else
      pymin
        ((samples.take 3).foldl
          (fun acc f =>
            acc + match env.exiftool f with
                  | some lines => exif_sample_score rules lines
                  | none => 0)
          0)
        rules.confidence

/-- `CameraDetector._find_files_in_path`: nothing without extensions;
otherwise collect the (recursive or top-level) hits per extension, then
deduplicate and sort (`sorted(list(set(files)))`). -/
def find_files_in_path (env : DetectEnv) (path : String)
    (extensions : List String) (recursive : Bool) : List String :=
  if extensions.length = 0 then []
  else
    sortStrings
      ((extensions.foldl
        (fun acc ext =>
          match (if recursive then env.findIExt path ("*" ++ ext)
                 else env.findIExtTop path ("*" ++ ext)) with
          | some found => acc ++ found
          | none => acc)
        []).eraseDups)

/-- `CameraDetector._get_file_sources`: per logical category, gather the
files of every source rule whose folder exists; categories with no files
are omitted. -/
def get_file_sources (env : DetectEnv) (fs : FS) (sd : String)
    (sources : List (String × List SourceConfig)) :
    List (String × List String) :=
  sources.foldl
    (fun acc entry =>
      let files := entry.2.foldl
        (fun fl sc =>
          let sp := pjoin sd sc.path
          if pathExists fs sp then
            fl ++ find_files_in_path env sp sc.extensions sc.recursive
          else fl)
        []
      if files.length > 0 then acc ++ [(entry.1, files)] else acc)
    []

/-- `CameraDetector._test_camera_match`: sum the three signals, each
counted (and its method recorded) only when strictly positive; file
sources are only resolved for a profile whose aggregate score is
positive. -/
def test_camera_match (env : DetectEnv) (fs : FS) (sd camera_id : String)
    (cc : CameraConfig) : CameraDetectionResult :=
  let structure_score := test_folder_structure fs sd cc.folder_structure
  let pattern_total := test_file_patterns env sd cc.file_patterns
  let exif_score := test_exif_data env sd cc.exif_rules
  let confidence_score :=
    (if structure_score > 0 then structure_score else 0) +
    (if pattern_total > 0 then pattern_total else 0) +
    (if exif_score > 0 then exif_score else 0)
  { camera_id := camera_id
    camera_name := cc.name
    confidence_score := confidence_score
    detection_methods :=
      (if structure_score > 0 then ["folder_structure"] else []) ++
      (if pattern_total > 0 then ["file_patterns"] else []) ++
      (if exif_score > 0 then ["exif_data"] else [])
    file_sources :=
      if confidence_score > 0 then get_file_sources env fs sd cc.file_sources
      else [] }

/-- `CameraDetector.prepare_file_list`: pair every resolved file with a
destination-relative path.  `os.path.relpath` is total on POSIX, so the
source's `except ValueError` skip branch never fires there and every file
is included — for a file outside the SD root, with a relative path built
from `..` components. -/
def prepare_file_list (preserve_folder_structure : Bool)
    (res : CameraDetectionResult) (sd : String) : List (String × String) :=
  res.file_sources.foldl
    (fun acc entry =>
      acc ++ entry.2.map
        (fun f =>
          let rel := relpath f sd
          let rel := if preserve_folder_structure then rel
                     else pjoin entry.1 (basename f)
          (f, rel)))
    []

/-!
## Concrete instances used by counterexamples and witnesses
-/

/-- The identity digest: the simplest injective hash, used to instantiate
concrete scenarios. -/
def idHash : Bytes → Bytes := fun b => b

/-- Filesystem of the stats counterexample: one readable source file. -/
def fs5 : FS := fun p => if p = "s" then .readable [0] else .absent

/-- Configuration of the stats counterexample: mode pinned to direct NAS
transfer. -/
def cfg5 : TransferConfig :=
  { transfer_mode := "direct_nas", fallback_to_local := true,
    nas_storage_path := "n", local_storage_path := "l",
    preserve_timestamps := true }

/-- Environment of the stats counterexample: both copies deliver the exact
source bytes (no corruption, no copy failure). -/
def env5 : TransferEnv :=
  { nasProbeAtSelect := false, nasProbeAtSync := false,
    mainEvents := [.deliver [0] true, .deliver [0] true], syncEvents := [] }

/-- File list of the stats counterexample: the second source path is
exactly the NAS destination the first file is copied to. -/
def files5 : List (String × String) := [("s", "r"), ("n/d/t/r", "q")]

/-- Filesystem of the staged-deletion counterexample: two readable source
files. -/
def fs10 : FS := fun p =>
  if p = "s1" then .readable [1]
  else if p = "s2" then .readable [2] else .absent

/-- Configuration of the staged-deletion counterexample: the local staging
root `a/d/t` lies under the NAS root `a`, so that with device `d` and date
`t` a push destination coincides with a staged path. -/
def cfg10 : TransferConfig :=
  { transfer_mode := "local_first", fallback_to_local := true,
    nas_storage_path := "a", local_storage_path := "a/d/t",
    preserve_timestamps := true }

/-- Environment of the staged-deletion counterexample: both staging copies
are faithful; the first push copy is corrupted in flight (delivers `[9]`
instead of `[1]`), so its verification fails. -/
def env10 : TransferEnv :=
  { nasProbeAtSelect := false, nasProbeAtSync := true,
    mainEvents := [.deliver [1] true, .deliver [2] true],
    syncEvents := [.deliver [9] true, .deliver [9] true] }

/-- File list of the staged-deletion counterexample. -/
def files10 : List (String × String) := [("s1", "d/t/r"), ("s2", "r")]

/-- Filesystem of the duplicate-manager witness: two content-identical
files, one distinct file, one unreadable file. -/
def fsDup : FS := fun p =>
  if p = "x1" then .readable [7]
  else if p = "x2" then .readable [7]
  else if p = "y" then .readable [3]
  else if p = "bad" then .unreadable [0] else .absent

/-- Detector environment of the required-folder counterexample: one file
matches the profile's filename pattern; every other search finds
nothing. -/
def envC1 : DetectEnv :=
  { findName := fun r p =>
      if r = "/sd" ∧ p = "DJI_*.MP4" then some ["/sd/x/DJI_0001.MP4"]
      else some []
    findIExt := fun _ _ => some []
    findIExtTop := fun _ _ => some []
    exiftool := fun _ => none }

/-- Profile of the required-folder counterexample: one required folder
rule (`DCIM`) and one filename-pattern rule with base confidence 50. -/
def camC1 : CameraConfig :=
  { name := "Drone", folder_structure := [⟨"DCIM", true⟩],
    file_patterns := [⟨"DJI_*.MP4", 50⟩], exif_rules := none,
    file_sources := [] }

/-- An entirely empty filesystem (so the required `DCIM` folder is
absent). -/
def fsEmpty : FS := fun _ => .absent

/-- Detector environment of the pattern-bonus counterexample: three files
match the `*.ARW` pattern. -/
def envC6 : DetectEnv :=
  { findName := fun r p =>
      if r = "/sd" ∧ p = "*.ARW" then
        some ["/sd/a.ARW", "/sd/b.ARW", "/sd/c.ARW"]
      else some []
    findIExt := fun _ _ => some []
    findIExtTop := fun _ _ => some []
    exiftool := fun _ => none }

/-- Detection result of the outside-root counterexample: one resolved file
that does not live under the mount path. -/
def resC7 : CameraDetectionResult :=
  { camera_id := "cam", camera_name := "cam", confidence_score := 40,
    detection_methods := ["folder_structure"],
    file_sources := [("photos", ["/etc/cam.jpg"])] }

/-- Filesystem of the verification witness: two byte-identical readable
files. -/
def fsVer : FS := fun p =>
  if p = "a" then .readable [1, 2]
  else if p = "b" then .readable [1, 2] else .absent

/-!
## Helper lemmas
-/

/-- A per-file copy touches the filesystem only at its destination path. -/
theorem copy_touches_only_dst (hash : Bytes → Bytes) (fs : FS)
    (src dst : String) (pts : Bool) (ev : CopyEvent) (q : String)
    (h : q ≠ dst) :
    (copy_file_with_verification hash fs src dst pts ev).2 q = fs q := by
  cases hr : readBytes fs src with
  | none => simp [copy_file_with_verification, hr]
  | some b =>
    cases ev with
    | err left => simp [copy_file_with_verification, hr, setFile, h]
    | deliver c u =>
      by_cases hv :
        verify_transfer hash (setFile fs dst (.readable c)) src dst
      · simp [copy_file_with_verification, hr, hv, setFile, h]
      · by_cases he : pathExists (setFile fs dst (.readable c)) dst
        · simp [copy_file_with_verification, hr, hv, he, setFile, h]
        · simp [copy_file_with_verification, hr, hv, he, setFile, h]

/-- Each stats update adds exactly one to the success/failure total. -/
theorem update_stats_counts (fs : FS) (r : TransferResult) (s : String)
    (st : TransferStats) :
    (update_stats fs r s st).successful_transfers +
      (update_stats fs r s st).failed_transfers =
    st.successful_transfers + st.failed_transfers + 1 := by
  unfold update_stats
  by_cases hs : r.success
  · cases hg : getsize fs s <;> simp [hs] <;> omega
  · simp [hs]; omega

/-- A stats update never touches the `total_files`/`total_size` fields. -/
theorem update_stats_totals (fs : FS) (r : TransferResult) (s : String)
    (st : TransferStats) :
    (update_stats fs r s st).total_files = st.total_files ∧
      (update_stats fs r s st).total_size = st.total_size := by
  unfold update_stats
  by_cases hs : r.success
  · cases hg : getsize fs s <;> simp [hs]
  · simp [hs]

/-- Each counter of the stats is monotone under one update. -/
theorem update_stats_mono (fs : FS) (r : TransferResult) (s : String)
    (st : TransferStats) :
    st.successful_transfers ≤ (update_stats fs r s st).successful_transfers ∧
    st.failed_transfers ≤ (update_stats fs r s st).failed_transfers ∧
    st.transferred_size ≤ (update_stats fs r s st).transferred_size := by
  unfold update_stats
  by_cases hs : r.success
  · cases hg : getsize fs s <;> simp [hs]
  · simp [hs]

/-- A stats update adds at most the current size of the source file to the
transferred byte count. -/
theorem update_stats_transferred_le (fs : FS) (r : TransferResult)
    (s : String) (st : TransferStats) :
    (update_stats fs r s st).transferred_size ≤
      st.transferred_size + (getsize fs s).getD 0 := by
  unfold update_stats
  by_cases hs : r.success
  · cases hg : getsize fs s <;> simp [hs, hg]
  · simp [hs]

/-- `sum_sizes` only looks at the source paths of the list. -/
theorem sum_sizes_congr (fs₁ fs₂ : FS) :
    ∀ l : List (String × String),
      (∀ e ∈ l, fs₁ e.1 = fs₂ e.1) → sum_sizes fs₁ l = sum_sizes fs₂ l := by
  intro l
  induction l with
  | nil => intro _; rfl
  | cons e rest ih =>
    intro h
    have he : fs₁ e.1 = fs₂ e.1 := h e (by simp)
    have hr : ∀ x ∈ rest, fs₁ x.1 = fs₂ x.1 := fun x hx => h x (by simp [hx])
    cases e with
    | mk src rel => simp [sum_sizes, getsize, he, ih hr]

/-- The main per-file loop performs exactly one stats update per file:
its success/failure total grows by exactly the number of input files. -/
theorem transfer_loop_counts (hash : Bytes → Bytes)
    (base device date : String) (pts : Bool) :
    ∀ (files : List (String × String)) (evs : List CopyEvent) (fs : FS)
      (st : TransferStats),
      (transfer_loop hash base device date pts files evs fs st).2.1.successful_transfers +
        (transfer_loop hash base device date pts files evs fs st).2.1.failed_transfers =
      st.successful_transfers + st.failed_transfers + files.length := by
  intro files
  induction files with
  | nil => intro evs fs st; simp [transfer_loop]
  | cons e rest ih =>
    intro evs fs st
    cases e with
    | mk src rel =>
      simp only [transfer_loop]
      rw [ih, update_stats_counts]
      simp
      omega

/-- The main per-file loop never touches the `total_files`/`total_size`
fields of the stats. -/
theorem transfer_loop_totals (hash : Bytes → Bytes)
    (base device date : String) (pts : Bool) :
    ∀ (files : List (String × String)) (evs : List CopyEvent) (fs : FS)
      (st : TransferStats),
      (transfer_loop hash base device date pts files evs fs st).2.1.total_files =
        st.total_files ∧
      (transfer_loop hash base device date pts files evs fs st).2.1.total_size =
        st.total_size := by
  intro files
  induction files with
  | nil => intro evs fs st; simp [transfer_loop]
  | cons e rest ih =>
    intro evs fs st
    cases e with
    | mk src rel =>
      simp only [transfer_loop]
      constructor
      · rw [(ih _ _ _).1, (update_stats_totals _ _ _ _).1]
      · rw [(ih _ _ _).2, (update_stats_totals _ _ _ _).2]

/-- As long as no source path of the batch coincides with any destination
path of the batch, the transferred byte count grows by at most the sizes
of the sources as they were when the loop started. -/
theorem transfer_loop_transferred_le (hash : Bytes → Bytes)
    (base device date : String) (pts : Bool) :
    ∀ (files : List (String × String)) (evs : List CopyEvent) (fs : FS)
      (st : TransferStats),
      (∀ p ∈ files, ∀ q ∈ files, p.1 ≠ pjoin4 base device date q.2) →
      (transfer_loop hash base device date pts files evs fs st).2.1.transferred_size ≤
        st.transferred_size + sum_sizes fs files := by
  intro files
  induction files with
  | nil => intro evs fs st _; simp [transfer_loop]
  | cons e rest ih =>
    intro evs fs st hdisj
    cases e with
    | mk src rel =>
      simp only [transfer_loop]
      have hsrc : src ≠ pjoin4 base device date rel :=
        hdisj (src, rel) (by simp) (src, rel) (by simp)
      have hfs' : ∀ x ∈ rest,
          (copy_file_with_verification hash fs src
            (pjoin4 base device date rel) pts (evs.headD (.err .absent))).2 x.1 = fs x.1 := by
        intro x hx
        exact copy_touches_only_dst _ _ _ _ _ _ _
          (hdisj x (by simp [hx]) (src, rel) (by simp))
      have hsum :
          sum_sizes
            (copy_file_with_verification hash fs src
              (pjoin4 base device date rel) pts (evs.headD (.err .absent))).2 rest =
          sum_sizes fs rest := sum_sizes_congr _ _ rest hfs'
      have hrec := ih evs.tail
        (copy_file_with_verification hash fs src
          (pjoin4 base device date rel) pts (evs.headD (.err .absent))).2
        (update_stats
          (copy_file_with_verification hash fs src
            (pjoin4 base device date rel) pts (evs.headD (.err .absent))).2
          (copy_file_with_verification hash fs src
            (pjoin4 base device date rel) pts (evs.headD (.err .absent))).1
          src st)
        (fun p hp q hq => hdisj p (by simp [hp]) q (by simp [hq]))
      have hup := update_stats_transferred_le
        (copy_file_with_verification hash fs src
          (pjoin4 base device date rel) pts (evs.headD (.err .absent))).2
        (copy_file_with_verification hash fs src
          (pjoin4 base device date rel) pts (evs.headD (.err .absent))).1
        src st
      have hsz :
          getsize
            (copy_file_with_verification hash fs src
              (pjoin4 base device date rel) pts (evs.headD (.err .absent))).2 src =
          getsize fs src := by
        unfold getsize
        rw [copy_touches_only_dst _ _ _ _ _ _ _ hsrc]
      rw [hsum] at hrec
      rw [hsz] at hup
      calc (transfer_loop hash base device date pts rest evs.tail _ _).2.1.transferred_size
          ≤ _ + sum_sizes fs rest := hrec
        _ ≤ (st.transferred_size + (getsize fs src).getD 0) + sum_sizes fs rest := by
            exact Nat.add_le_add_right hup _
        _ = st.transferred_size + sum_sizes fs ((src, rel) :: rest) := by
            simp [sum_sizes]; omega

/-- The sync loop of `_sync_to_nas_async` never modifies the stats. -/
theorem sync_loop_stats (hash : Bytes → Bytes) (base device date : String) :
    ∀ (files : List (String × String)) (evs : List CopyEvent) (fs : FS)
      (st : TransferStats),
      (sync_loop hash base device date files evs fs st).2 = st := by
  intro files
  induction files with
  | nil => intro evs fs st; rfl
  | cons e rest ih =>
    intro evs fs st
    cases e with
    | mk lf rel => simp only [sync_loop]; exact ih _ _ _

/-- The sync loop touches only push-destination paths. -/
theorem sync_loop_frame (hash : Bytes → Bytes) (base device date : String) :
    ∀ (files : List (String × String)) (evs : List CopyEvent) (fs : FS)
      (st : TransferStats) (p : String),
      (∀ e ∈ files, p ≠ pjoin4 base device date e.2) →
      (sync_loop hash base device date files evs fs st).1 p = fs p := by
  intro files
  induction files with
  | nil => intro evs fs st p _; rfl
  | cons e rest ih =>
    intro evs fs st p hp
    cases e with
    | mk lf rel =>
      simp only [sync_loop]
      rw [ih _ _ _ _ (fun x hx => hp x (by simp [hx]))]
      exact copy_touches_only_dst _ _ _ _ _ _ _ (hp (lf, rel) (by simp))

/-!
## Claim theorems
-/

/-- Claim C4: `verify_transfer(a, b)` returns false whenever the file at
`b` does not exist; otherwise it returns true exactly when the two files'
full contents are byte-identical (given an injective digest); and a read
failure on either side yields false rather than an exception. -/
theorem C4_verify_transfer_characterisation (hash : Bytes → Bytes)
    (fs : FS) (a b : String) (hinj : Function.Injective hash) :
    (pathExists fs b = false → verify_transfer hash fs a b = false) ∧
    (verify_transfer hash fs a b = true ↔
      pathExists fs b = true ∧
        ∃ c, readBytes fs a = some c ∧ readBytes fs b = some c) ∧
    ((readBytes fs a = none ∨ readBytes fs b = none) →
      verify_transfer hash fs a b = false) := by
  refine ⟨fun hb => by simp [verify_transfer, hb], ⟨?_, ?_⟩, ?_⟩
  · intro hv
    by_cases hb : pathExists fs b = false
    · simp [verify_transfer, hb] at hv
    · cases ha : readBytes fs a with
      | none => simp [verify_transfer, calculate_checksum, hb, ha] at hv
      | some ca =>
        cases hbb : readBytes fs b with
        | none =>
          simp [verify_transfer, calculate_checksum, hb, ha, hbb] at hv
        | some cb =>
          simp [verify_transfer, calculate_checksum, hb, ha, hbb] at hv
          have hcc : ca = cb := hinj hv
          subst hcc
          exact ⟨by simpa using hb, ca, rfl, rfl⟩
  · rintro ⟨hb, c, ha, hbb⟩
    simp [verify_transfer, calculate_checksum, ha, hbb, hb]
  · intro h
    by_cases hb : pathExists fs b = false
    · simp [verify_transfer, hb]
    · cases h with
      | inl ha => simp [verify_transfer, calculate_checksum, ha, hb]
      | inr hbb =>
        cases ha : readBytes fs a with
        | none => simp [verify_transfer, calculate_checksum, ha, hb]
        | some ca => simp [verify_transfer, calculate_checksum, ha, hbb, hb]

/-- Witness for C4 at a concrete input: two byte-identical files verify. -/
theorem C4_verify_transfer_characterisation_witness :
    verify_transfer (fun x => x) fsVer "a" "b" = true :=
  ((C4_verify_transfer_characterisation (fun x => x) fsVer "a" "b"
      (fun _ _ h => h)).2.1).mpr ⟨by decide, [1, 2], by decide, by decide⟩

/-- Claim C2: in automatic mode, a reachable NAS selects the direct
strategy, an unreachable NAS with fallback allowed selects the staged
strategy, and an unreachable NAS with fallback disallowed raises the
configuration-conflict error before any file copy (filesystem untouched,
zero successes and zero failures recorded). -/
theorem C2_auto_mode_selection (hash : Bytes → Bytes)
    (cfg : TransferConfig) (env : TransferEnv) (fs : FS)
    (files : List (String × String)) (device date : String)
    (hauto : cfg.transfer_mode = "auto") :
    (env.nasProbeAtSelect = true →
      transfer_files hash cfg env fs files device date =
        { error := none,
          stats := (transfer_direct_to_nas hash cfg device date files
            env.mainEvents fs (initStats fs files)).2,
          fs := (transfer_direct_to_nas hash cfg device date files
            env.mainEvents fs (initStats fs files)).1 }) ∧
    (env.nasProbeAtSelect = false → cfg.fallback_to_local = true →
      transfer_files hash cfg env fs files device date =
        { error := none,
          stats := (transfer_local_first hash cfg env device date files fs
            (initStats fs files)).2,
          fs := (transfer_local_first hash cfg env device date files fs
            (initStats fs files)).1 }) ∧
    (env.nasProbeAtSelect = false → cfg.fallback_to_local = false →
      (transfer_files hash cfg env fs files device date).error =
        some "NAS not available and local fallback disabled" ∧
      (transfer_files hash cfg env fs files device date).fs = fs ∧
      (transfer_files hash cfg env fs files device date).stats.successful_transfers = 0 ∧
      (transfer_files hash cfg env fs files device date).stats.failed_transfers = 0) := by
  refine ⟨?_, ?_, ?_⟩
  · intro h1
    simp [transfer_files, get_transfer_mode, hauto, h1]
  · intro h1 h2
    simp [transfer_files, get_transfer_mode, hauto, h1, h2]
  · intro h1 h2
    simp [transfer_files, get_transfer_mode, hauto, h1, h2, initStats]

/-- Witness for C2 at a concrete input: automatic mode, NAS unreachable,
fallback disabled — the run errors out with the filesystem untouched. -/
theorem C2_auto_mode_selection_witness :
    (transfer_files idHash
      { transfer_mode := "auto", fallback_to_local := false,
        nas_storage_path := "n", local_storage_path := "l",
        preserve_timestamps := true }
      { nasProbeAtSelect := false, nasProbeAtSync := false,
        mainEvents := [], syncEvents := [] }
      fsEmpty [("s", "r")] "d" "t").error =
      some "NAS not available and local fallback disabled" :=
  ((C2_auto_mode_selection idHash _ _ fsEmpty [("s", "r")] "d" "t"
      rfl).2.2 rfl rfl).1

/-- Claim C3 counterexample: not every caught per-file error yields a
failed outcome.  When the copy and verification succeed but the subsequent
timestamp replication (`os.stat`/`os.utime`) raises, the exception is
caught by the same handler, yet `success` was already set — the outcome
stays successful while an error message is recorded. -/
theorem C3_utime_error_outcome_cex :
    (copy_file_with_verification idHash fsVer "a" "b" true
      (.deliver [1, 2] false)).1.success = true ∧
    (copy_file_with_verification idHash fsVer "a" "b" true
      (.deliver [1, 2] false)).1.error_message = some "utime error" := by
  decide

/-- Claim C3 (amended): a post-copy digest mismatch deletes the
destination and fails the file; a raising copy and a raising source-digest
computation are each caught and fail the file; and the batch loop performs
exactly one stats update per file, so no single file's failure prevents
the rest of the batch from being processed.  (The one exception, forced by
the counterexample, is an error during timestamp replication after
successful verification: it is caught without propagating but the outcome
remains successful, with the error message recorded.) -/
theorem C3_per_file_failure_handling :
    (∀ (hash : Bytes → Bytes) (fs : FS) (src dst : String) (pts : Bool)
       (b a : Bytes) (u : Bool), src ≠ dst → readBytes fs src = some a →
       hash b ≠ hash a →
       (copy_file_with_verification hash fs src dst pts
         (.deliver b u)).1.success = false ∧
       (copy_file_with_verification hash fs src dst pts
         (.deliver b u)).2 dst = .absent) ∧
    (∀ (hash : Bytes → Bytes) (fs : FS) (src dst : String) (pts : Bool)
       (left : FileState),
       (copy_file_with_verification hash fs src dst pts
         (.err left)).1.success = false) ∧
    (∀ (hash : Bytes → Bytes) (fs : FS) (src dst : String) (pts : Bool)
       (ev : CopyEvent), readBytes fs src = none →
       (copy_file_with_verification hash fs src dst pts ev).1.success = false) ∧
    (∀ (hash : Bytes → Bytes) (base device date : String) (pts : Bool)
       (files : List (String × String)) (evs : List CopyEvent) (fs : FS)
       (st : TransferStats),
       (transfer_loop hash base device date pts files evs fs st).2.1.successful_transfers +
         (transfer_loop hash base device date pts files evs fs st).2.1.failed_transfers =
       st.successful_transfers + st.failed_transfers + files.length) := by
  refine ⟨?_, ?_, ?_, ?_⟩
  · intro hash fs src dst pts b a u hne hsrc hmm
    have hread : readBytes (setFile fs dst (.readable b)) src = some a := by
      unfold readBytes setFile
      simp [hne]
      unfold readBytes at hsrc
      exact hsrc
    have hverify :
        verify_transfer hash (setFile fs dst (.readable b)) src dst = false := by
      unfold verify_transfer calculate_checksum
      have hex : pathExists (setFile fs dst (.readable b)) dst = true := by
        simp [pathExists, setFile]
      have hdst : readBytes (setFile fs dst (.readable b)) dst = some b := by
        simp [readBytes, setFile]
      simp [hex, hread, hdst]
      exact fun h => absurd h.symm hmm
    have hex1 : pathExists (setFile fs dst (.readable b)) dst = true := by
      simp [pathExists, setFile]
    constructor
    · simp [copy_file_with_verification, hsrc, hverify]
    · simp [copy_file_with_verification, hsrc, hverify, hex1, setFile]
  · intro hash fs src dst pts left
    cases hsrc : readBytes fs src with
    | none => simp [copy_file_with_verification, hsrc]
    | some a => simp [copy_file_with_verification, hsrc]
  · intro hash fs src dst pts ev hsrc
    simp [copy_file_with_verification, hsrc]
  · intro hash base device date pts files evs fs st
    exact transfer_loop_counts hash base device date pts files evs fs st

/-- Witness for C3 at a concrete input: a corrupted delivery fails the
file and leaves no destination file behind. -/
theorem C3_per_file_failure_handling_witness :
    (copy_file_with_verification idHash fsVer "a" "z" true
      (.deliver [9] true)).1.success = false ∧
    (copy_file_with_verification idHash fsVer "a" "z" true
      (.deliver [9] true)).2 "z" = .absent :=
  C3_per_file_failure_handling.1 idHash fsVer "a" "z" true [9] [1, 2] true
    (by decide) (by decide) (by decide)

/-- The sync sub-phase, probe included, never modifies the stats. -/
theorem sync_to_nas_stats (hash : Bytes → Bytes) (cfg : TransferConfig)
    (device date : String) (nasUp : Bool)
    (localFiles : List (String × String)) (evs : List CopyEvent)
    (fs : FS) (st : TransferStats) :
    (sync_to_nas hash cfg device date nasUp localFiles evs fs st).2 = st := by
  unfold sync_to_nas
  by_cases h : nasUp = true
  · simp [h, sync_loop_stats]
  · simp [h]

/-- For a direct run started on freshly reset stats, the counters always
add up to the file count, aliasing batches included. -/
theorem direct_counts_ok (hash : Bytes → Bytes) (cfg : TransferConfig)
    (device date : String) (files : List (String × String))
    (evs : List CopyEvent) (fs : FS) :
    (transfer_direct_to_nas hash cfg device date files evs fs
        (initStats fs files)).2.successful_transfers +
      (transfer_direct_to_nas hash cfg device date files evs fs
        (initStats fs files)).2.failed_transfers =
      (transfer_direct_to_nas hash cfg device date files evs fs
        (initStats fs files)).2.total_files := by
  unfold transfer_direct_to_nas
  rw [transfer_loop_counts,
    (transfer_loop_totals hash cfg.nas_storage_path device date
      cfg.preserve_timestamps files evs fs (initStats fs files)).1]
  simp [initStats]

/-- For a direct run started on freshly reset stats, under
source/destination disjointness the transferred bytes stay within the
total. -/
theorem direct_bound_ok (hash : Bytes → Bytes) (cfg : TransferConfig)
    (device date : String) (files : List (String × String))
    (evs : List CopyEvent) (fs : FS)
    (hdisj : ∀ p ∈ files, ∀ q ∈ files,
      p.1 ≠ pjoin4 cfg.nas_storage_path device date q.2) :
    (transfer_direct_to_nas hash cfg device date files evs fs
        (initStats fs files)).2.transferred_size ≤
      (transfer_direct_to_nas hash cfg device date files evs fs
        (initStats fs files)).2.total_size := by
  unfold transfer_direct_to_nas
  have h1 := transfer_loop_transferred_le hash cfg.nas_storage_path device
    date cfg.preserve_timestamps files evs fs (initStats fs files) hdisj
  have h2 := (transfer_loop_totals hash cfg.nas_storage_path device date
    cfg.preserve_timestamps files evs fs (initStats fs files)).2
  rw [h2]
  simpa [initStats] using h1

/-- For a local-first run started on freshly reset stats, the counters
always add up to the file count (the sync sub-phase leaves the stats
untouched). -/
theorem local_counts_ok (hash : Bytes → Bytes) (cfg : TransferConfig)
    (env : TransferEnv) (device date : String)
    (files : List (String × String)) (fs : FS) :
    (transfer_local_first hash cfg env device date files fs
        (initStats fs files)).2.successful_transfers +
      (transfer_local_first hash cfg env device date files fs
        (initStats fs files)).2.failed_transfers =
      (transfer_local_first hash cfg env device date files fs
        (initStats fs files)).2.total_files := by
  unfold transfer_local_first
  rw [sync_to_nas_stats]
  rw [transfer_loop_counts,
    (transfer_loop_totals hash cfg.local_storage_path device date
      cfg.preserve_timestamps files env.mainEvents fs (initStats fs files)).1]
  simp [initStats]

/-- For a local-first run started on freshly reset stats, under
source/destination disjointness the transferred bytes stay within the
total. -/
theorem local_bound_ok (hash : Bytes → Bytes) (cfg : TransferConfig)
    (env : TransferEnv) (device date : String)
    (files : List (String × String)) (fs : FS)
    (hdisj : ∀ p ∈ files, ∀ q ∈ files,
      p.1 ≠ pjoin4 cfg.local_storage_path device date q.2) :
    (transfer_local_first hash cfg env device date files fs
        (initStats fs files)).2.transferred_size ≤
      (transfer_local_first hash cfg env device date files fs
        (initStats fs files)).2.total_size := by
  unfold transfer_local_first
  rw [sync_to_nas_stats]
  have h1 := transfer_loop_transferred_le hash cfg.local_storage_path
    device date cfg.preserve_timestamps files env.mainEvents fs
    (initStats fs files) hdisj
  have h2 := (transfer_loop_totals hash cfg.local_storage_path device date
    cfg.preserve_timestamps files env.mainEvents fs (initStats fs files)).2
  rw [h2]
  simpa [initStats] using h1

/-- Claim C5 counterexample: a completed run whose transferred byte count
exceeds its total byte count.  The second source path `n/d/t/r` is exactly
the NAS destination the first file is copied to: it does not exist when
the total size is computed (contributing 0) but exists by the time its own
successful transfer is counted, so `transferred_size = 2 > 1 =
total_size`. -/
theorem C5_transferred_exceeds_total_cex :
    (transfer_files idHash cfg5 env5 fs5 files5 "d" "t").error = none ∧
    ¬ ((transfer_files idHash cfg5 env5 fs5 files5 "d" "t").stats.transferred_size ≤
       (transfer_files idHash cfg5 env5 fs5 files5 "d" "t").stats.total_size) := by
  decide

/-- Claim C5 (amended): after every completed `transfer_files` run —
aliasing batches included — `successful + failed = total_files`;
`transferred_size ≤ total_size` holds provided no source path of the
batch coincides with a destination path of the batch (under either
storage root), the aliasing the counterexample exhibits being the one way
the inequality can fail.  Each stats counter is monotone under the
per-file update. -/
theorem C5_stats_invariants :
    (∀ (hash : Bytes → Bytes) (cfg : TransferConfig) (env : TransferEnv)
       (fs : FS) (files : List (String × String)) (device date : String),
       (transfer_files hash cfg env fs files device date).error = none →
       (transfer_files hash cfg env fs files device date).stats.successful_transfers +
         (transfer_files hash cfg env fs files device date).stats.failed_transfers =
         (transfer_files hash cfg env fs files device date).stats.total_files) ∧
    (∀ (hash : Bytes → Bytes) (cfg : TransferConfig) (env : TransferEnv)
       (fs : FS) (files : List (String × String)) (device date : String),
       (∀ p ∈ files, ∀ q ∈ files,
          p.1 ≠ pjoin4 cfg.nas_storage_path device date q.2 ∧
          p.1 ≠ pjoin4 cfg.local_storage_path device date q.2) →
       (transfer_files hash cfg env fs files device date).error = none →
       (transfer_files hash cfg env fs files device date).stats.transferred_size ≤
         (transfer_files hash cfg env fs files device date).stats.total_size) ∧
    (∀ (fs : FS) (r : TransferResult) (s : String) (st : TransferStats),
       st.successful_transfers ≤ (update_stats fs r s st).successful_transfers ∧
       st.failed_transfers ≤ (update_stats fs r s st).failed_transfers ∧
       st.transferred_size ≤ (update_stats fs r s st).transferred_size) := by
  refine ⟨?_, ?_, update_stats_mono⟩
  · intro hash cfg env fs files device date herr
    unfold transfer_files
    cases hm : get_transfer_mode cfg env.nasProbeAtSelect with
    | error m =>
      unfold transfer_files at herr
      rw [hm] at herr
      simp at herr
    | ok mode =>
      by_cases hdm : mode = "direct_nas"
      · simpa [hdm] using
          direct_counts_ok hash cfg device date files env.mainEvents fs
      · simpa [hdm] using
          local_counts_ok hash cfg env device date files fs
  · intro hash cfg env fs files device date hdisj herr
    unfold transfer_files
    cases hm : get_transfer_mode cfg env.nasProbeAtSelect with
    | error m =>
      unfold transfer_files at herr
      rw [hm] at herr
      simp at herr
    | ok mode =>
      by_cases hdm : mode = "direct_nas"
      · simpa [hdm] using direct_bound_ok hash cfg device date files
          env.mainEvents fs (fun p hp q hq => (hdisj p hp q hq).1)
      · simpa [hdm] using local_bound_ok hash cfg env device date files fs
          (fun p hp q hq => (hdisj p hp q hq).2)

/-- Witness for C5 at concrete inputs: the counts equality holds for the
completed aliasing run of the counterexample itself, and both stats facts
hold for a direct run over one ordinary file. -/
theorem C5_stats_invariants_witness :
    ((transfer_files idHash cfg5 env5 fs5 files5 "d" "t").stats.successful_transfers +
      (transfer_files idHash cfg5 env5 fs5 files5 "d" "t").stats.failed_transfers =
      (transfer_files idHash cfg5 env5 fs5 files5 "d" "t").stats.total_files) ∧
    (transfer_files idHash cfg5 env5 fs5 [("s", "r")] "d" "t").stats.transferred_size ≤
      (transfer_files idHash cfg5 env5 fs5 [("s", "r")] "d" "t").stats.total_size :=
  ⟨C5_stats_invariants.1 idHash cfg5 env5 fs5 files5 "d" "t" (by decide),
   C5_stats_invariants.2.1 idHash cfg5 env5 fs5 [("s", "r")] "d" "t"
     (by decide) (by decide)⟩

/-- Claim C10 counterexample: the push sub-phase can delete a staged local
file.  With local root `a/d/t` under NAS root `a`, the file staged for
relative path `r` lives at `a/d/t/d/t/r`, which is exactly the push
destination for relative path `d/t/r`; when that push copy is corrupted,
its verification mismatch removes the destination — deleting the staged
file.  After the local phase the staged file holds `[2]`; after the full
run it is absent. -/
theorem C10_staged_file_deleted_cex :
    ("a/d/t/d/t/r", "r") ∈
      (transfer_loop idHash cfg10.local_storage_path "d" "t"
        cfg10.preserve_timestamps files10 env10.mainEvents fs10
        (initStats fs10 files10)).2.2 ∧
    (transfer_loop idHash cfg10.local_storage_path "d" "t"
        cfg10.preserve_timestamps files10 env10.mainEvents fs10
        (initStats fs10 files10)).1 "a/d/t/d/t/r" = FileState.readable [2] ∧
    (transfer_files idHash cfg10 env10 fs10 files10 "d" "t").fs
        "a/d/t/d/t/r" = FileState.absent := by
  decide

/-- Claim C10 (amended): the push sub-phase modifies no field of the
stats, and it touches only push-destination paths — so no staged local
file is altered or deleted provided no push destination path coincides
with a staged path (the coincidence the counterexample exhibits is the one
way a staged file can be deleted). -/
theorem C10_sync_phase_frame :
    (∀ (hash : Bytes → Bytes) (cfg : TransferConfig) (device date : String)
       (nasUp : Bool) (localFiles : List (String × String))
       (evs : List CopyEvent) (fs : FS) (st : TransferStats),
       (sync_to_nas hash cfg device date nasUp localFiles evs fs st).2 = st) ∧
    (∀ (hash : Bytes → Bytes) (cfg : TransferConfig) (device date : String)
       (nasUp : Bool) (localFiles : List (String × String))
       (evs : List CopyEvent) (fs : FS) (st : TransferStats) (p : String),
       (∀ e ∈ localFiles, p ≠ pjoin4 cfg.nas_storage_path device date e.2) →
       (sync_to_nas hash cfg device date nasUp localFiles evs fs st).1 p = fs p) := by
  constructor
  · exact fun hash cfg device date nasUp lf evs fs st =>
      sync_to_nas_stats hash cfg device date nasUp lf evs fs st
  · intro hash cfg device date nasUp lf evs fs st p hp
    unfold sync_to_nas
    by_cases h : nasUp = true
    · simp only [h, if_true]
      exact sync_loop_frame hash cfg.nas_storage_path device date lf evs fs st p hp
    · simp [h]

/-- Witness for C10 at a concrete input: a path that is no push
destination is untouched by the sync sub-phase. -/
theorem C10_sync_phase_frame_witness :
    (sync_to_nas idHash cfg10 "d" "t" true [("x", "r")] [] fsEmpty
      (initStats fsEmpty [])).1 "zzz" = fsEmpty "zzz" :=
  C10_sync_phase_frame.2 idHash cfg10 "d" "t" true [("x", "r")] [] fsEmpty
    (initStats fsEmpty []) "zzz" (by decide)

/-- Claim C9 counterexample: the secure-tunnel check carries no timeout on
its `subprocess.run` call, so in the probe-timeout environment (a command
that never terminates) it never returns "unavailable" — it blocks forever,
while the NAS probe in the same environment duly returns false. -/
theorem C9_vpn_probe_no_timeout_cex :
    check_vpn_status { duration := none, returncode := 0 } = ProbeRes.hangs ∧
    test_nas_connectivity { nas_timeout_seconds := 10 }
      { duration := none, returncode := 0 } = ProbeRes.returns false := by
  decide

/-- Claim C9 (amended): the NAS reachability probe carries an explicit
timeout and fails closed — it never blocks, reports true only for a
terminating command that exited 0, and reports false on timeout (a
never-terminating command or one outlasting the configured timeout, where
the raised `TimeoutExpired` is caught) and on every command failure; the
secure-tunnel check fails closed on every *terminating* command (false
unless exit 0) but carries no timeout, so a never-terminating command
blocks it. -/
theorem C9_probe_fail_closed :
    (∀ (cfg : NetConfig) (env : ProcEnv),
       test_nas_connectivity cfg env ≠ ProbeRes.hangs) ∧
    (∀ (cfg : NetConfig) (env : ProcEnv),
       test_nas_connectivity cfg env = ProbeRes.returns true →
       env.duration ≠ none ∧ env.returncode = 0) ∧
    (∀ (cfg : NetConfig) (env : ProcEnv), env.duration = none →
       test_nas_connectivity cfg env = ProbeRes.returns false) ∧
    (∀ (cfg : NetConfig) (env : ProcEnv) (d : Nat), env.duration = some d →
       cfg.nas_timeout_seconds < d →
       test_nas_connectivity cfg env = ProbeRes.returns false) ∧
    (∀ (cfg : NetConfig) (env : ProcEnv), env.returncode ≠ 0 →
       test_nas_connectivity cfg env = ProbeRes.returns false) ∧
    (∀ (env : ProcEnv) (d : Nat), env.duration = some d →
       check_vpn_status env = ProbeRes.returns (env.returncode == 0)) := by
  refine ⟨?_, ?_, ?_, ?_, ?_, ?_⟩
  · intro cfg env
    unfold test_nas_connectivity subprocess_run
    cases hd : env.duration with
    | none => simp
    | some d =>
      by_cases ht : cfg.nas_timeout_seconds < d
      · simp [ht]
      · simp [ht]
  · intro cfg env h
    unfold test_nas_connectivity subprocess_run at h
    cases hd : env.duration with
    | none => rw [hd] at h; simp at h
    | some d =>
      rw [hd] at h
      by_cases ht : cfg.nas_timeout_seconds < d
      · simp [ht] at h
      · simp [ht] at h
        exact ⟨by simp [hd], h⟩
  · intro cfg env hd
    unfold test_nas_connectivity subprocess_run
    rw [hd]
  · intro cfg env d hd ht
    unfold test_nas_connectivity subprocess_run
    rw [hd]
    simp [ht]
  · intro cfg env hrc
    unfold test_nas_connectivity subprocess_run
    cases hd : env.duration with
    | none => simp
    | some d =>
      by_cases ht : cfg.nas_timeout_seconds < d
      · simp [ht]
      · simp [ht, hrc]
  · intro env d hd
    unfold check_vpn_status subprocess_run
    rw [hd]

/-- Witness for C9 at concrete inputs: a command that outlasts the
10-second timeout makes the NAS probe return false even with exit code 0,
and a promptly terminating command with nonzero exit code makes it return
false as well. -/
theorem C9_probe_fail_closed_witness :
    test_nas_connectivity { nas_timeout_seconds := 10 }
      { duration := some 20, returncode := 0 } = ProbeRes.returns false ∧
    test_nas_connectivity { nas_timeout_seconds := 10 }
      { duration := some 1, returncode := 2 } = ProbeRes.returns false :=
  ⟨C9_probe_fail_closed.2.2.2.1 { nas_timeout_seconds := 10 }
     { duration := some 20, returncode := 0 } 20 (by decide) (by decide),
   C9_probe_fail_closed.2.2.2.2.1 { nas_timeout_seconds := 10 }
     { duration := some 1, returncode := 2 } (by decide)⟩

/-- Claim C1 (code-bug evidence): a profile whose sole folder rule is a
required folder that is absent is *not* forced to score 0.  The early
`return 0` in `_test_folder_structure` zeroes only the folder-structure
signal; `_test_camera_match` then still adds the filename-pattern and
metadata signals, so this profile scores 50 from its matching pattern —
contradicting the sources' required-folder gate (and the code's own
comment that the camera type "doesn't match"). -/
theorem C1_required_folder_gate_bug :
    pathExists fsEmpty (pjoin "/sd" "DCIM") = false ∧
    camC1.folder_structure = [{ path := "DCIM", required := true }] ∧
    test_folder_structure fsEmpty "/sd" camC1.folder_structure = 0 ∧
    (test_camera_match envC1 fsEmpty "/sd" "drone" camC1).confidence_score = 50 := by
  decide

/-- Claim C6 (code-bug evidence): the per-extra-file bonus is never added.
With three files matching a rule of base confidence 50, the rule
contributes exactly 50, because `min(confidence, confidence +
file_count * 5)` always evaluates to `confidence` (the third conjunct:
for every file count the bonus expression collapses to the base), despite
the source's "bonus for more files" comment. -/
theorem C6_pattern_bonus_never_added :
    envC6.findName "/sd" "*.ARW" =
      some ["/sd/a.ARW", "/sd/b.ARW", "/sd/c.ARW"] ∧
    test_file_patterns envC6 "/sd"
      [{ pattern := "*.ARW", confidence := 50 }] = 50 ∧
    (∀ k : Nat, pymin 50 (50 + (k : Int) * 5) = 50) := by
  refine ⟨by decide, by decide, ?_⟩
  intro k
  unfold pymin
  have h : (50 : Int) ≤ 50 + (k : Int) * 5 := by
    have hk : (0 : Int) ≤ (k : Int) * 5 := by positivity
    omega
  simp [h]

/-- Claim C7 (code-bug evidence): a source file outside the mount-path
root is *not* rejected.  `os.path.relpath` never raises `ValueError` on
POSIX, so the source's skip branch is dead and `prepare_file_list`
includes the outside file — with an upward `../..` relative path when the
original layout is preserved, and under its category folder otherwise. -/
theorem C7_outside_root_included_bug :
    underRoot "/mnt/sd" "/etc/cam.jpg" = false ∧
    prepare_file_list true resC7 "/mnt/sd" =
      [("/etc/cam.jpg", "../../etc/cam.jpg")] ∧
    prepare_file_list false resC7 "/mnt/sd" =
      [("/etc/cam.jpg", "photos/cam.jpg")] := by
  decide

/-- Association-list lookup distributes over append. -/
theorem alookup_append {α : Type} :
    ∀ (l₁ l₂ : List (Bytes × α)) (c : Bytes),
      alookup (l₁ ++ l₂) c =
        match alookup l₁ c with
        | some v => some v
        | none => alookup l₂ c := by
  intro l₁
  induction l₁ with
  | nil => intro l₂ c; rfl
  | cons e rest ih =>
    intro l₂ c
    cases e with
    | mk k v =>
      by_cases hk : k = c
      · simp [alookup, hk]
      · simp [alookup, hk, ih]

/-- Adding one to a list can only increase a `countP`. -/
theorem countP_cons_ge {α : Type} (pr : α → Bool) (a : α) (l : List α) :
    List.countP pr l ≤ List.countP pr (a :: l) := by
  rw [List.countP_cons]
  by_cases h : pr a <;> simp [h]

/-- A member satisfying the predicate forces a positive `countP`. -/
theorem countP_pos_of_mem {α : Type} (pr : α → Bool) (a : α) (l : List α)
    (ha : a ∈ l) (hpr : pr a = true) : 1 ≤ List.countP pr l := by
  have : 0 < List.countP pr l := List.countP_pos_iff.mpr ⟨a, ha, hpr⟩
  omega

/-- Every entry of `appendAt dups c p` is either an untouched entry of
`dups` or the first `c`-entry of `dups` with `p` appended. -/
theorem mem_appendAt :
    ∀ (dups : List (Bytes × List String)) (c₀ : Bytes) (p₀ : String)
      (c : Bytes) (g : List String),
      (c, g) ∈ appendAt dups c₀ p₀ →
      (c, g) ∈ dups ∨
        (c = c₀ ∧ ∃ g₁, (c₀, g₁) ∈ dups ∧ g = g₁ ++ [p₀]) := by
  intro dups
  induction dups with
  | nil => intro c₀ p₀ c g h; simp [appendAt] at h
  | cons e rest ih =>
    intro c₀ p₀ c g h
    cases e with
    | mk k v =>
      by_cases hk : k = c₀
      · rw [appendAt, if_pos hk] at h
        rcases List.mem_cons.mp h with h1 | h2
        · have hc : c = k := (Prod.mk.injEq _ _ _ _ ▸ h1.symm).1.symm
          have hg : g = v ++ [p₀] := (Prod.mk.injEq _ _ _ _ ▸ h1.symm).2.symm
          exact Or.inr ⟨hc.trans hk, v, by simp [hk], hg⟩
        · exact Or.inl (List.mem_cons.mpr (Or.inr h2))
      · rw [appendAt, if_neg hk] at h
        rcases List.mem_cons.mp h with h1 | h2
        · exact Or.inl (List.mem_cons.mpr (Or.inl h1))
        · rcases ih c₀ p₀ c g h2 with h3 | ⟨hc, g₁, hg₁, hg⟩
          · exact Or.inl (List.mem_cons.mpr (Or.inr h3))
          · exact Or.inr ⟨hc, g₁, List.mem_cons.mpr (Or.inr hg₁), hg⟩

/-- `appendAt` preserves the size bound on every group. -/
theorem appendAt_groups_len (dups : List (Bytes × List String)) (c : Bytes)
    (p : String) (h : ∀ e ∈ dups, 2 ≤ e.2.length) :
    ∀ e ∈ appendAt dups c p, 2 ≤ e.2.length := by
  intro e he
  cases e with
  | mk k g =>
    rcases mem_appendAt dups c p k g he with h1 | ⟨_, g₁, hg₁, hg⟩
    · exact h _ h1
    · have := h _ hg₁
      simp at this ⊢
      subst hg
      simp
      omega

/-- Every group that `cdGo` ever emits has at least two members (new
groups are born with the first and the current occurrence; extensions only
grow). -/
theorem cdGo_groups_len (hash : Bytes → Bytes) (fs : FS) :
    ∀ (rem : List String) (seen : List (Bytes × String))
      (dups : List (Bytes × List String)),
      (∀ e ∈ dups, 2 ≤ e.2.length) →
      ∀ e ∈ cdGo hash fs rem seen dups, 2 ≤ e.2.length := by
  intro rem
  induction rem with
  | nil => intro seen dups h e he; exact h e he
  | cons r0 rest ih =>
    intro seen dups h e he
    rw [cdGo] at he
    cases hc : calculate_checksum hash fs r0 with
    | none =>
      simp only [hc] at he
      exact ih seen dups h e he
    | some c =>
      simp only [hc] at he
      cases halk : alookup seen c with
      | none =>
        simp only [halk] at he
        exact ih _ dups h e he
      | some first =>
        simp only [halk] at he
        cases hald : alookup dups c with
        | none =>
          simp only [hald] at he
          refine ih seen _ ?_ e he
          intro x hx
          rcases List.mem_append.mp hx with h1 | h2
          · exact h x h1
          · simp at h2
            subst h2
            simp
        | some g0 =>
          simp only [hald] at he
          exact ih seen _ (appendAt_groups_len dups c r0 h) e he

/-- A path with failed digest is skipped without affecting anything else:
`check_duplicates` on a list containing it equals `check_duplicates` on
the list without it. -/
theorem cdGo_skip (hash : Bytes → Bytes) (fs : FS) (p : String)
    (hp : calculate_checksum hash fs p = none) :
    ∀ (pre post : List String) (seen : List (Bytes × String))
      (dups : List (Bytes × List String)),
      cdGo hash fs (pre ++ p :: post) seen dups =
      cdGo hash fs (pre ++ post) seen dups := by
  intro pre
  induction pre with
  | nil =>
    intro post seen dups
    simp only [List.nil_append, cdGo, hp]
  | cons a l ih =>
    intro post seen dups
    simp only [List.cons_append, cdGo]
    cases hc : calculate_checksum hash fs a with
    | none =>
      simp only [hc]
      exact ih post seen dups
    | some c =>
      simp only [hc]
      cases halk : alookup seen c with
      | none =>
        simp only [halk]
        exact ih post _ dups
      | some first =>
        simp only [halk]
        exact ih post seen _

/-- Where a member of an output group of `cdGo` can come from: it was
already in a group; or it is the first-seen occurrence pulled out of
`seen` by a later occurrence of its digest in the remaining input; or it
is an element of the remaining input whose digest was already seen or
occurs at least twice in the remaining input. -/
theorem cdGo_mem_origin (hash : Bytes → Bytes) (fs : FS) :
    ∀ (rem : List String) (seen : List (Bytes × String))
      (dups : List (Bytes × List String)) (c : Bytes) (g : List String)
      (p : String),
      (c, g) ∈ cdGo hash fs rem seen dups → p ∈ g →
      (∃ g₀, (c, g₀) ∈ dups ∧ p ∈ g₀) ∨
      (alookup seen c = some p ∧
        ∃ r ∈ rem, calculate_checksum hash fs r = some c) ∨
      (p ∈ rem ∧ calculate_checksum hash fs p = some c ∧
        (alookup seen c ≠ none ∨
          2 ≤ List.countP
            (fun x => decide (calculate_checksum hash fs x = some c)) rem)) := by
  intro rem
  induction rem with
  | nil =>
    intro seen dups c g p hin hp
    exact Or.inl ⟨g, hin, hp⟩
  | cons r0 rest ih =>
    intro seen dups c g p hin hp
    rw [cdGo] at hin
    cases hc0 : calculate_checksum hash fs r0 with
    | none =>
      simp only [hc0] at hin
      rcases ih seen dups c g p hin hp with h1 | ⟨hs, r, hr, hcr⟩ | ⟨hpr, hcp, hor⟩
      · exact Or.inl h1
      · exact Or.inr (Or.inl ⟨hs, r, List.mem_cons.mpr (Or.inr hr), hcr⟩)
      · refine Or.inr (Or.inr ⟨List.mem_cons.mpr (Or.inr hpr), hcp, ?_⟩)
        rcases hor with h | h
        · exact Or.inl h
        · exact Or.inr (le_trans h (countP_cons_ge _ r0 rest))
    | some c0 =>
      simp only [hc0] at hin
      cases halk : alookup seen c0 with
      | none =>
        simp only [halk] at hin
        rcases ih _ dups c g p hin hp with h1 | ⟨hs, r, hr, hcr⟩ | ⟨hpr, hcp, hor⟩
        · exact Or.inl h1
        · rw [alookup_append] at hs
          cases halc : alookup seen c with
          | some v =>
            rw [halc] at hs
            simp at hs
            subst hs
            exact Or.inr (Or.inl ⟨rfl, r, List.mem_cons.mpr (Or.inr hr), hcr⟩)
          | none =>
            rw [halc] at hs
            rw [alookup] at hs
            by_cases hcc : c0 = c
            · rw [if_pos hcc] at hs
              simp at hs
              subst hs
              subst hcc
              refine Or.inr (Or.inr
                ⟨List.mem_cons.mpr (Or.inl rfl), hc0, Or.inr ?_⟩)
              have h1 : 1 ≤ List.countP
                  (fun x => decide (calculate_checksum hash fs x = some c0))
                  rest := countP_pos_of_mem _ r rest hr (by simp [hcr])
              have h2 : List.countP
                  (fun x => decide (calculate_checksum hash fs x = some c0))
                  (r0 :: rest) =
                  List.countP
                    (fun x => decide (calculate_checksum hash fs x = some c0))
                    rest + 1 := by
                rw [List.countP_cons]
                simp [hc0]
              rw [h2]
              omega
            · rw [if_neg hcc] at hs
              rw [alookup] at hs
              exact absurd hs (by simp)
        · refine Or.inr (Or.inr ⟨List.mem_cons.mpr (Or.inr hpr), hcp, ?_⟩)
          rcases hor with h | h
          · rw [alookup_append] at h
            cases halc : alookup seen c with
            | some v => exact Or.inl (by simp [halc])
            | none =>
              rw [halc] at h
              rw [alookup] at h
              by_cases hcc : c0 = c
              · subst hcc
                refine Or.inr ?_
                have h1 : 1 ≤ List.countP
                    (fun x => decide (calculate_checksum hash fs x = some c0))
                    rest := countP_pos_of_mem _ p rest hpr (by simp [hcp])
                have h2 : List.countP
                    (fun x => decide (calculate_checksum hash fs x = some c0))
                    (r0 :: rest) =
                    List.countP
                      (fun x => decide (calculate_checksum hash fs x = some c0))
                      rest + 1 := by
                  rw [List.countP_cons]
                  simp [hc0]
                rw [h2]
                omega
              · rw [if_neg hcc] at h
                rw [alookup] at h
                exact absurd rfl h
          · exact Or.inr (le_trans h (countP_cons_ge _ r0 rest))
      | some first =>
        simp only [halk] at hin
        cases hald : alookup dups c0 with
        | none =>
          simp only [hald] at hin
          rcases ih seen _ c g p hin hp with
            ⟨g₀, hg₀, hpg₀⟩ | ⟨hs, r, hr, hcr⟩ | ⟨hpr, hcp, hor⟩
          · rcases List.mem_append.mp hg₀ with h1 | h2
            · exact Or.inl ⟨g₀, h1, hpg₀⟩
            · simp at h2
              obtain ⟨hcc, hgg⟩ := h2
              subst hcc
              subst hgg
              rcases List.mem_cons.mp hpg₀ with hpf | hpr0
              · subst hpf
                exact Or.inr (Or.inl
                  ⟨halk, r0, List.mem_cons.mpr (Or.inl rfl), hc0⟩)
              · simp at hpr0
                subst hpr0
                exact Or.inr (Or.inr
                  ⟨List.mem_cons.mpr (Or.inl rfl), hc0, Or.inl (by simp [halk])⟩)
          · exact Or.inr (Or.inl ⟨hs, r, List.mem_cons.mpr (Or.inr hr), hcr⟩)
          · refine Or.inr (Or.inr ⟨List.mem_cons.mpr (Or.inr hpr), hcp, ?_⟩)
            rcases hor with h | h
            · exact Or.inl h
            · exact Or.inr (le_trans h (countP_cons_ge _ r0 rest))
        | some g1 =>
          simp only [hald] at hin
          rcases ih seen _ c g p hin hp with
            ⟨g₀, hg₀, hpg₀⟩ | ⟨hs, r, hr, hcr⟩ | ⟨hpr, hcp, hor⟩
          · rcases mem_appendAt dups c0 r0 c g₀ hg₀ with h1 | ⟨hcc, g₂, hg₂, hgg⟩
            · exact Or.inl ⟨g₀, h1, hpg₀⟩
            · subst hcc
              subst hgg
              rcases List.mem_append.mp hpg₀ with hpg | hp0
              · exact Or.inl ⟨g₂, hg₂, hpg⟩
              · simp at hp0
                subst hp0
                exact Or.inr (Or.inr
                  ⟨List.mem_cons.mpr (Or.inl rfl), hc0, Or.inl (by simp [halk])⟩)
          · exact Or.inr (Or.inl ⟨hs, r, List.mem_cons.mpr (Or.inr hr), hcr⟩)
          · refine Or.inr (Or.inr ⟨List.mem_cons.mpr (Or.inr hpr), hcp, ?_⟩)
            rcases hor with h | h
            · exact Or.inl h
            · exact Or.inr (le_trans h (countP_cons_ge _ r0 rest))

/-- Claim C8: every group that `check_duplicates` returns has at least two
members, each carrying the group's digest; an input path whose digest is
shared by no other input entry appears in no group; a path whose digest
computation fails appears in no group; and removing such a failing path
from the input leaves the result unchanged (the failure does not abort the
check). -/
theorem C8_check_duplicates_spec (hash : Bytes → Bytes) (fs : FS)
    (files : List String) (dn dt : String) :
    (∀ c g, (c, g) ∈ check_duplicates hash fs files dn dt →
       2 ≤ g.length ∧ ∀ p ∈ g, calculate_checksum hash fs p = some c) ∧
    (∀ p, p ∈ files →
       List.countP
         (fun q => decide (calculate_checksum hash fs q =
           calculate_checksum hash fs p)) files ≤ 1 →
       ∀ c g, (c, g) ∈ check_duplicates hash fs files dn dt → p ∉ g) ∧
    (∀ p c g, calculate_checksum hash fs p = none →
       (c, g) ∈ check_duplicates hash fs files dn dt → p ∉ g) ∧
    (∀ p pre post, calculate_checksum hash fs p = none →
       files = pre ++ p :: post →
       check_duplicates hash fs files dn dt =
         check_duplicates hash fs (pre ++ post) dn dt) := by
  refine ⟨?_, ?_, ?_, ?_⟩
  · intro c g hin
    constructor
    · exact cdGo_groups_len hash fs files [] [] (by simp) (c, g) hin
    · intro p hp
      rcases cdGo_mem_origin hash fs files [] [] c g p hin hp with
        ⟨g₀, hg₀, _⟩ | ⟨hs, _⟩ | ⟨_, hdig, _⟩
      · simp at hg₀
      · simp [alookup] at hs
      · exact hdig
  · intro p hpin hcount c g hin hp
    rcases cdGo_mem_origin hash fs files [] [] c g p hin hp with
      ⟨g₀, hg₀, _⟩ | ⟨hs, _⟩ | ⟨_, hdig, hor⟩
    · simp at hg₀
    · simp [alookup] at hs
    · rcases hor with h | h
      · simp [alookup] at h
      · simp only [hdig] at hcount
        omega
  · intro p c g hnone hin hp
    rcases cdGo_mem_origin hash fs files [] [] c g p hin hp with
      ⟨g₀, hg₀, _⟩ | ⟨hs, _⟩ | ⟨_, hdig, _⟩
    · simp at hg₀
    · simp [alookup] at hs
    · rw [hnone] at hdig
      exact absurd hdig (by simp)
  · intro p pre post hnone hfiles
    subst hfiles
    exact cdGo_skip hash fs p hnone pre post [] []

/-- Witness for C8 at a concrete input: `y` has a unique digest among the
inputs and is indeed absent from the one group (of the two files holding
`[7]`) the check returns. -/
theorem C8_check_duplicates_spec_witness :
    "y" ∉ (["x1", "x2"] : List String) :=
  (C8_check_duplicates_spec idHash fsDup ["x1", "x2", "y", "bad"] "d" "t").2.1
    "y" (by decide) (by decide) [7] ["x1", "x2"] (by decide)
